import Mathlib

/-!
Verification of the ossium volume-rendering pipeline.

The WGSL projection shaders (`src/shaders/mpr.wgsl`, the SVR variants of
`src/frontend/shaders/shader.wgsl` and `src/static/shaders/svr.wgsl`) are
embedded over `ℚ` (exact arithmetic standing for the shader's real-number
semantics), the `Camera` class (`src/src/camera.ts`, first variant) over `ℝ`
because its rotation setters use sines and cosines, and the `Engine` /
`Volume` load paths (`src/src/engine.ts`, `src/src/volume.ts`) as explicit
state-passing functions with `Except` for thrown `Error`s.
-/

namespace Ossium

/-- Component triple used both for WGSL `vec3<f32>` values (over `ℚ`) and
for `gl-matrix` `vec3` camera vectors (over `ℝ`). -/
structure Vec3 (α : Type) where
  x : α
  y : α
  z : α
deriving DecidableEq, Repr

/-- WGSL `vec4<f32>` colour value `(r, g, b, a)` as used by the SVR
compositing loop and the MIP output. -/
structure Rgba where
  r : ℚ
  g : ℚ
  b : ℚ
  a : ℚ
deriving DecidableEq, Repr

/-- WGSL `fn intensity(sample)` from `mpr.wgsl` and the SVR shaders:
`(sample.x + sample.y * 255) / 256`, decoding an `rg8unorm` texel
(channel values in `[0,1]`) into a normalised 16-bit intensity. -/
def intensity16 (x y : ℚ) : ℚ := (x + y * 255) / 256

/-- WGSL `i32(e)` conversion from a float scalar: truncation toward zero
(the `i32` range saturation never matters at the values considered here). -/
def i32trunc (q : ℚ) : ℤ := if 0 ≤ q then Int.floor q else -Int.floor (-q)

/-- Transfer-function index computed by the SVR fragment shader
(`shader.wgsl` line 133 / `svr.wgsl` variants): `i32(val * uniforms.tfSize)`.
No clamping is applied in the source. -/
def tfIndexOf (val tfSize : ℚ) : ℤ := i32trunc (val * tfSize)

/-- WGSL in-loop bounds test
`all(coords >= vec3<f32>(0.0)) && all(coords <= vec3<f32>(1.0))`. -/
def inUnitCube (c : Vec3 ℚ) : Bool :=
  decide (0 ≤ c.x) && decide (c.x ≤ 1) &&
  decide (0 ≤ c.y) && decide (c.y ≤ 1) &&
  decide (0 ≤ c.z) && decide (c.z ≤ 1)

/-- One loop iteration of the MIP fragment shader, abstracted over what the
transform and texture sampling produce: the normalised coordinates of the
sample and the two `rg8unorm` channel values fetched there. -/
structure MipSample where
  coords : Vec3 ℚ
  tx : ℚ
  ty : ℚ
deriving DecidableEq, Repr

/-- Running-maximum loop of `mpr.wgsl` `frag_main`: `maxIntensity` starts at
`0` and is updated with `max(maxIntensity, intensity(sample))` only for
samples whose coordinates pass the `[0,1]^3` bounds test. -/
def mipFold (m : ℚ) (samples : List MipSample) : ℚ :=
  samples.foldl
    (fun acc s => if inUnitCube s.coords then max acc (intensity16 s.tx s.ty) else acc) m

/-- Value of `maxIntensity` after the full loop of `mpr.wgsl` `frag_main`. -/
def mipMax (samples : List MipSample) : ℚ := mipFold 0 samples

/-- Output of `mpr.wgsl` `frag_main`:
`out = (maxIntensity - (level + width/2)) / width` replicated over RGB with
alpha `1`, with no clamping. -/
def mipFrag (samples : List MipSample) (width level : ℚ) : Rgba :=
  Rgba.mk ((mipMax samples - (level + width / 2)) / width)
          ((mipMax samples - (level + width / 2)) / width)
          ((mipMax samples - (level + width / 2)) / width)
          1

/-- Front-to-back compositing step of the SVR shaders
(`shader.wgsl` lines 147-152): `alpha = (1 - acc.a) * colour.a`,
`acc.rgb += alpha * colour.rgb`, `acc.a += alpha`.  The argument `colour`
is the lit colour and transfer-function alpha of the current sample. -/
def compositeStep (acc colour : Rgba) : Rgba :=
  Rgba.mk (acc.r + (1 - acc.a) * colour.a * colour.r)
          (acc.g + (1 - acc.a) * colour.a * colour.g)
          (acc.b + (1 - acc.a) * colour.a * colour.b)
          (acc.a + (1 - acc.a) * colour.a)

/-- SVR marching loop without the early-termination break: every sample of
the ray is composited (the per-sample lit colour and alpha are abstracted
into the list elements, since they do not depend on the accumulator). -/
def svrFullAux (acc : Rgba) (samples : List Rgba) : Rgba :=
  samples.foldl compositeStep acc

/-- SVR marching loop of `shader.wgsl` `frag_main` (lines 124-155) with the
early-termination test `if (accColour.a >= 0.95) { break; }` executed after
compositing each sample. -/
def svrEarlyAux (acc : Rgba) : List Rgba → Rgba
  | [] => acc
  | s :: rest =>
    if (95 : ℚ) / 100 ≤ (compositeStep acc s).a then compositeStep acc s
    else svrEarlyAux (compositeStep acc s) rest

/-- One loop iteration of the bounds-guarded SVR variant
(`shader.wgsl` lines 218-253): the sample's normalised coordinates and the
lit colour plus transfer-function alpha it would contribute. -/
structure SvrSample where
  coords : Vec3 ℚ
  colour : Rgba
deriving DecidableEq, Repr

/-- Accumulation loop of the bounds-guarded SVR variant
(`shader.wgsl` lines 218-253): `accColour` starts fully transparent and is
updated only for samples inside the `[0,1]^3` cube; there is no break. -/
def svrGuardedLoop (samples : List SvrSample) : Rgba :=
  samples.foldl
    (fun acc s => if inUnitCube s.coords then compositeStep acc s.colour else acc)
    (Rgba.mk 0 0 0 0)

/- ------------------------------------------------------------------ -/
/- C1 : transfer-function index clamping                               -/
/- ------------------------------------------------------------------ -/

/-- C1: the claim states that `floor(intensity * entryCount)` is clamped
into `[0, entryCount-1]` before the transfer-function lookup.  The source
(`shader.wgsl` line 133, `svr.wgsl` line 74) applies no clamp: a texel with
both channels at their maximum decodes to intensity `1`, and for an entry
count of `256` the computed lookup index is `256`, outside `[0, 255]`. -/
theorem tfIndex_unclamped_out_of_bounds :
    intensity16 1 1 = 1 ∧
    tfIndexOf (intensity16 1 1) 256 = 256 ∧
    ¬ tfIndexOf (intensity16 1 1) 256 ≤ (256 : ℤ) - 1 := by
  norm_num [intensity16, tfIndexOf, i32trunc]

/- ------------------------------------------------------------------ -/
/- C2 : SVR early termination                                          -/
/- ------------------------------------------------------------------ -/

/-- Compositing a sample of alpha `0` leaves the accumulator unchanged. -/
theorem compositeStep_zero_alpha (acc s : Rgba) (h : s.a = 0) :
    compositeStep acc s = acc := by
  obtain ⟨r, g, b, a⟩ := acc
  simp [compositeStep, h]

/-- A tail whose samples all have alpha `0` contributes nothing to the
unbounded traversal. -/
theorem svrFullAux_zero_tail (t : List Rgba) (ht : ∀ s ∈ t, s.a = 0) :
    ∀ acc, svrFullAux acc t = acc := by
  induction t with
  | nil => intro acc; rfl
  | cons s rest ih =>
    intro acc
    have hs : s.a = 0 := ht s (List.mem_cons_self s rest)
    have hrest : ∀ u ∈ rest, u.a = 0 := fun u hu => ht u (List.mem_cons_of_mem s hu)
    show svrFullAux (compositeStep acc s) rest = acc
    rw [compositeStep_zero_alpha acc s hs]
    exact ih hrest acc

/-- A tail whose samples all have alpha `0` contributes nothing to the
early-terminating traversal either. -/
theorem svrEarlyAux_zero_tail (t : List Rgba) (ht : ∀ s ∈ t, s.a = 0) :
    ∀ acc, svrEarlyAux acc t = acc := by
  induction t with
  | nil => intro acc; rfl
  | cons s rest ih =>
    intro acc
    have hs : s.a = 0 := ht s (List.mem_cons_self s rest)
    have hrest : ∀ u ∈ rest, u.a = 0 := fun u hu => ht u (List.mem_cons_of_mem s hu)
    show (if (95 : ℚ) / 100 ≤ (compositeStep acc s).a then compositeStep acc s
          else svrEarlyAux (compositeStep acc s) rest) = acc
    rw [compositeStep_zero_alpha acc s hs]
    split
    · rfl
    · exact ih hrest acc

/-- C2 counterexample: the claim asserts that once accumulated alpha
reaches `≥ 0.95` (here after `N = 1` samples, which brings alpha to exactly
`0.95`), visiting the remaining samples leaves the output unchanged.  With
a second sample of alpha `1`, the traversal that continues composites an
extra `(1 - 0.95) * 1` contribution, so the two outputs differ. -/
theorem svr_early_termination_differs :
    (95 : ℚ) / 100 ≤ (svrFullAux (Rgba.mk 0 0 0 0) [Rgba.mk 0 0 0 (19/20)]).a ∧
    svrEarlyAux (Rgba.mk 0 0 0 0) [Rgba.mk 0 0 0 (19/20), Rgba.mk 1 0 0 1] ≠
    svrFullAux (Rgba.mk 0 0 0 0) [Rgba.mk 0 0 0 (19/20), Rgba.mk 1 0 0 1] := by
  norm_num [svrFullAux, svrEarlyAux, compositeStep]

/-- Appending a tail of alpha-`0` samples does not change the result of the
early-terminating traversal, from any starting accumulator. -/
theorem svrEarlyAux_append_zero_tail (skipped : List Rgba)
    (ht : ∀ s ∈ skipped, s.a = 0) :
    ∀ (visited : List Rgba) (acc : Rgba),
      svrEarlyAux acc (visited ++ skipped) = svrEarlyAux acc visited := by
  intro visited
  induction visited with
  | nil => intro acc; exact svrEarlyAux_zero_tail skipped ht acc
  | cons s rest ih =>
    intro acc
    show (if (95 : ℚ) / 100 ≤ (compositeStep acc s).a then compositeStep acc s
          else svrEarlyAux (compositeStep acc s) (rest ++ skipped)) =
         (if (95 : ℚ) / 100 ≤ (compositeStep acc s).a then compositeStep acc s
          else svrEarlyAux (compositeStep acc s) rest)
    split
    · rfl
    · exact ih (compositeStep acc s)

/-- C2 (amended): if accumulated alpha reaches `≥ 0.95` after the samples
of `visited` and every skipped sample has transfer-function alpha `0`, then
the output is identical whether or not the tail `skipped` is visited, for
both the unbounded traversal and the traversal with the break. -/
theorem svr_early_termination_zero_tail (visited skipped : List Rgba)
    (_hacc : (95 : ℚ) / 100 ≤ (svrFullAux (Rgba.mk 0 0 0 0) visited).a)
    (ht : ∀ s ∈ skipped, s.a = 0) :
    svrFullAux (Rgba.mk 0 0 0 0) (visited ++ skipped) =
      svrFullAux (Rgba.mk 0 0 0 0) visited ∧
    svrEarlyAux (Rgba.mk 0 0 0 0) (visited ++ skipped) =
      svrEarlyAux (Rgba.mk 0 0 0 0) visited := by
  refine ⟨?_, svrEarlyAux_append_zero_tail skipped ht visited _⟩
  show List.foldl compositeStep (Rgba.mk 0 0 0 0) (visited ++ skipped) = _
  rw [List.foldl_append]
  exact svrFullAux_zero_tail skipped ht _

/-- C2 witness: a one-sample prefix reaching alpha `1 ≥ 0.95` followed by a
zero-alpha tail, instantiating `svr_early_termination_zero_tail`. -/
theorem svr_early_termination_zero_tail_witness :
    ((95 : ℚ) / 100 ≤ (svrFullAux (Rgba.mk 0 0 0 0) [Rgba.mk 1 1 1 1]).a) ∧
    (∀ s ∈ [Rgba.mk 2 3 4 0], s.a = 0) ∧
    (svrFullAux (Rgba.mk 0 0 0 0) ([Rgba.mk 1 1 1 1] ++ [Rgba.mk 2 3 4 0]) =
       svrFullAux (Rgba.mk 0 0 0 0) [Rgba.mk 1 1 1 1] ∧
     svrEarlyAux (Rgba.mk 0 0 0 0) ([Rgba.mk 1 1 1 1] ++ [Rgba.mk 2 3 4 0]) =
       svrEarlyAux (Rgba.mk 0 0 0 0) [Rgba.mk 1 1 1 1]) :=
  ⟨by norm_num [svrFullAux, compositeStep], by simp,
   svr_early_termination_zero_tail _ _ (by norm_num [svrFullAux, compositeStep]) (by simp)⟩

/- ------------------------------------------------------------------ -/
/- C6 : MIP windowing output                                           -/
/- ------------------------------------------------------------------ -/

/-- Folding further samples of decoded intensity `1/2` over a running
maximum of `1/2` leaves it at `1/2`. -/
theorem mipFold_half_of_half (samples : List MipSample)
    (h : ∀ s ∈ samples, intensity16 s.tx s.ty = 1/2) :
    mipFold (1/2) samples = 1/2 := by
  induction samples with
  | nil => rfl
  | cons s rest ih =>
    have hs : intensity16 s.tx s.ty = 1/2 := h s (List.mem_cons_self s rest)
    have hrest : ∀ u ∈ rest, intensity16 u.tx u.ty = 1/2 :=
      fun u hu => h u (List.mem_cons_of_mem s hu)
    show mipFold (if inUnitCube s.coords then max (1/2) (intensity16 s.tx s.ty)
                  else (1/2)) rest = 1/2
    rw [hs, max_self, ite_self]
    exact ih hrest

/-- For a volume whose every decoded sample intensity is `1/2`, with at
least one sample inside the unit cube, the running maximum is `1/2`. -/
theorem mipMax_uniform_half (samples : List MipSample)
    (h : ∀ s ∈ samples, intensity16 s.tx s.ty = 1/2)
    (hin : ∃ s ∈ samples, inUnitCube s.coords = true) :
    mipMax samples = 1/2 := by
  induction samples with
  | nil => obtain ⟨s, hs, _⟩ := hin; exact absurd hs (List.not_mem_nil s)
  | cons s rest ih =>
    have hs : intensity16 s.tx s.ty = 1/2 := h s (List.mem_cons_self s rest)
    have hrest : ∀ u ∈ rest, intensity16 u.tx u.ty = 1/2 :=
      fun u hu => h u (List.mem_cons_of_mem s hu)
    show mipFold (if inUnitCube s.coords then max 0 (intensity16 s.tx s.ty) else 0)
      rest = 1/2
    by_cases hc : inUnitCube s.coords = true
    · rw [if_pos hc, hs]
      have : max (0 : ℚ) (1/2) = 1/2 := by norm_num
      rw [this]
      exact mipFold_half_of_half rest hrest
    · rw [if_neg hc]
      obtain ⟨u, hu, huc⟩ := hin
      rcases List.mem_cons.mp hu with rfl | hu2
      · exact absurd huc hc
      · exact ih hrest ⟨u, hu2, huc⟩

/-- C6 counterexample: at the spec's own end-to-end scenario (uniform
decoded intensity `1/2`, window width `0.018`, level `0.498`) the code
outputs `(1/2 - (0.498 + 0.009)) / 0.018 = -7/18 ≈ -0.389`, not the
claimed `≈ -0.056` (off by far more than any rounding tolerance). -/
theorem mip_window_example_value_wrong :
    (mipFrag [MipSample.mk (Vec3.mk 0 0 0) 0 (128/255)] (18/1000) (498/1000)).r
      = -7/18 ∧
    ¬ |(mipFrag [MipSample.mk (Vec3.mk 0 0 0) 0 (128/255)] (18/1000) (498/1000)).r
        - (-56/1000)| < 1/10 := by
  norm_num [mipFrag, mipMax, mipFold, inUnitCube, intensity16, abs]

/-- C6 (amended): the MIP stage outputs exactly
`(maxIntensity - (level + width/2)) / width` replicated across R, G and B
with alpha 1, unclamped; for a uniform volume of decoded intensity `1/2`
at the default window width `0.018` and level `0.498` the output value is
`-7/18 ≈ -0.389` (negative, confirming the absence of clamping), not the
`≈ -0.056` stated in the claim. -/
theorem mip_window_output (samples : List MipSample) (width level : ℚ)
    (hhalf : ∀ s ∈ samples, intensity16 s.tx s.ty = 1/2)
    (hin : ∃ s ∈ samples, inUnitCube s.coords = true) :
    mipFrag samples width level =
      Rgba.mk ((mipMax samples - (level + width / 2)) / width)
              ((mipMax samples - (level + width / 2)) / width)
              ((mipMax samples - (level + width / 2)) / width) 1 ∧
    mipFrag samples (18/1000) (498/1000) = Rgba.mk (-7/18) (-7/18) (-7/18) 1 ∧
    ((-7 : ℚ)/18 < 0) := by
  refine ⟨rfl, ?_, by norm_num⟩
  rw [mipFrag, mipMax_uniform_half samples hhalf hin]
  norm_num

/-- C6 witness: a single in-bounds sample decoding to intensity `1/2`,
instantiating `mip_window_output`. -/
theorem mip_window_output_witness :
    (∀ s ∈ [MipSample.mk (Vec3.mk 0 0 0) 0 (128/255)],
        intensity16 s.tx s.ty = 1/2) ∧
    (∃ s ∈ [MipSample.mk (Vec3.mk 0 0 0) 0 (128/255)],
        inUnitCube s.coords = true) ∧
    mipFrag [MipSample.mk (Vec3.mk 0 0 0) 0 (128/255)] (18/1000) (498/1000) =
      Rgba.mk (-7/18) (-7/18) (-7/18) 1 :=
  ⟨by intro s hs; simp at hs; subst hs; norm_num [intensity16],
   by refine ⟨_, List.mem_singleton.mpr rfl, ?_⟩; norm_num [inUnitCube],
   (mip_window_output _ (18/1000) (498/1000)
     (by intro s hs; simp at hs; subst hs; norm_num [intensity16])
     (by refine ⟨_, List.mem_singleton.mpr rfl, ?_⟩; norm_num [inUnitCube])).2.1⟩

/- ------------------------------------------------------------------ -/
/- C7 : out-of-bounds sample rejection                                 -/
/- ------------------------------------------------------------------ -/

/-- Folding out-of-bounds MIP samples leaves any running maximum alone. -/
theorem mipFold_all_out (samples : List MipSample)
    (h : ∀ s ∈ samples, inUnitCube s.coords = false) :
    ∀ m, mipFold m samples = m := by
  induction samples with
  | nil => intro m; rfl
  | cons s rest ih =>
    intro m
    have hs : inUnitCube s.coords = false := h s (List.mem_cons_self s rest)
    have hrest : ∀ u ∈ rest, inUnitCube u.coords = false :=
      fun u hu => h u (List.mem_cons_of_mem s hu)
    show mipFold (if inUnitCube s.coords then max m (intensity16 s.tx s.ty) else m)
      rest = m
    rw [hs]
    exact ih hrest m

/-- Folding out-of-bounds SVR samples leaves any accumulator alone. -/
theorem svrGuardedFold_all_out (samples : List SvrSample)
    (h : ∀ s ∈ samples, inUnitCube s.coords = false) :
    ∀ acc, samples.foldl
      (fun acc s => if inUnitCube s.coords then compositeStep acc s.colour else acc)
      acc = acc := by
  induction samples with
  | nil => intro acc; rfl
  | cons s rest ih =>
    intro acc
    have hs : inUnitCube s.coords = false := h s (List.mem_cons_self s rest)
    have hrest : ∀ u ∈ rest, inUnitCube u.coords = false :=
      fun u hu => h u (List.mem_cons_of_mem s hu)
    show List.foldl _ (if inUnitCube s.coords then compositeStep acc s.colour else acc)
      rest = acc
    rw [hs]
    exact ih hrest acc

/-- C7: along a ray whose every sampled position falls outside the unit
cube `[0,1]^3`, no sample contributes: the MIP running maximum stays at its
initial value `0` and the guarded SVR accumulator stays `(0,0,0,0)`. -/
theorem out_of_bounds_rejection (ms : List MipSample) (ss : List SvrSample)
    (hm : ∀ s ∈ ms, inUnitCube s.coords = false)
    (hs : ∀ s ∈ ss, inUnitCube s.coords = false) :
    mipMax ms = 0 ∧ svrGuardedLoop ss = Rgba.mk 0 0 0 0 :=
  ⟨mipFold_all_out ms hm 0, svrGuardedFold_all_out ss hs _⟩

/-- C7 witness: single samples at coordinate `x = 2 > 1` and `x = -1 < 0`,
instantiating `out_of_bounds_rejection`. -/
theorem out_of_bounds_rejection_witness :
    (∀ s ∈ [MipSample.mk (Vec3.mk 2 0 0) 1 1], inUnitCube s.coords = false) ∧
    (∀ s ∈ [SvrSample.mk (Vec3.mk (-1) 0 0) (Rgba.mk 1 1 1 1)],
        inUnitCube s.coords = false) ∧
    (mipMax [MipSample.mk (Vec3.mk 2 0 0) 1 1] = 0 ∧
     svrGuardedLoop [SvrSample.mk (Vec3.mk (-1) 0 0) (Rgba.mk 1 1 1 1)] =
       Rgba.mk 0 0 0 0) :=
  ⟨by intro s hsm; simp at hsm; subst hsm; norm_num [inUnitCube],
   by intro s hsm; simp at hsm; subst hsm; norm_num [inUnitCube],
   out_of_bounds_rejection _ _
     (by intro s hsm; simp at hsm; subst hsm; norm_num [inUnitCube])
     (by intro s hsm; simp at hsm; subst hsm; norm_num [inUnitCube])⟩

/- ------------------------------------------------------------------ -/
/- Volume.load (src/src/volume.ts, first variant)                      -/
/- ------------------------------------------------------------------ -/

/-- Result of `daikon.Series.parseImage` on one DICOM file, abstracting the
external parser: the attributes `Volume.load` reads from an image.  A file
whose parse fails is represented as `none` in the input list. -/
structure DicomImage where
  seriesId : Nat
  rows : Nat
  cols : Nat
  bitsAllocated : Nat
  pixelRep : Nat
  pixelSpacing : Option (ℚ × ℚ)
  sliceThickness : Option ℚ
  scaleSlope : Option ℚ
  scaleIntercept : Option ℚ
  pixelData : List ℚ
  hasPixel : Bool
deriving DecidableEq, Repr

/-- The three `throw new Error(...)` sites of `Volume.load`. -/
inductive VolumeLoadErr where
  | noFiles
  | noValidImages
  | unsupportedBitsPerVoxel (bits : Nat)
deriving DecidableEq, Repr

/-- Fields of the `Volume` object populated by a successful load. -/
structure VolumeData where
  size : Nat × Nat × Nat
  bitsPerVoxel : Nat
  bytesPerLine : Nat
  signed : Bool
  boundingBox : ℚ × ℚ × ℚ
  data : List Nat
deriving DecidableEq, Repr

/-- Per-file step of the series-building loop in `Volume.load`: a parse
failure is logged and skipped; an image with pixel data is appended when it
is the first image or belongs to the same series as the first. -/
def seriesAdd (acc : List DicomImage) (f : Option DicomImage) : List DicomImage :=
  match f with
  | none => acc
  | some img =>
    if img.hasPixel then
      match acc with
      | [] => [img]
      | first :: _ => if img.seriesId = first.seriesId then acc ++ [img] else acc
    else acc

/-- Image list accumulated by `Volume.load` over all supplied files
(`daikon.Series.buildSeries`, which only reorders within the series, is
abstracted as the identity; the load's error classification does not depend
on the order because the claims quantify over all image lists). -/
def buildImages (files : List (Option DicomImage)) : List DicomImage :=
  files.foldl seriesAdd []

/-- JavaScript `Math.round`: round half toward positive infinity. -/
def jsRound (q : ℚ) : ℤ := Int.floor (q + 1/2)

/-- JavaScript `Uint16Array` element assignment: wrap modulo `2^16`. -/
def toUint16 (z : ℤ) : Nat := (z % 65536).toNat

/-- Rescaled voxels of one slice:
`volumeData[offset + j] = Math.round(rescaleSlope * pixelData[j] + 2^15)`;
reading past the end of the interpreted pixel data yields `NaN` in JS and
stores `0` in the `Uint16Array`. -/
def sliceVoxels (img : DicomImage) (sliceSize : Nat) : List Nat :=
  (List.range sliceSize).map (fun j =>
    match img.pixelData.get? j with
    | some v => toUint16 (jsRound (img.scaleSlope.getD 1 * v + 32768))
    | none => 0)

/-- `Volume.load` of `src/src/volume.ts` (first variant): throws `noFiles`
on an empty file list, `noValidImages` when no parsed image carries pixel
data, `unsupportedBitsPerVoxel` when the first image's allocated bits are
not 16, and otherwise fills the volume fields and rescaled data buffer. -/
def volumeLoad (files : List (Option DicomImage)) : Except VolumeLoadErr VolumeData :=
  if files.isEmpty then Except.error VolumeLoadErr.noFiles
  else
    match buildImages files with
    | [] => Except.error VolumeLoadErr.noValidImages
    | first :: rest =>
      if first.bitsAllocated ≠ 16 then
        Except.error (VolumeLoadErr.unsupportedBitsPerVoxel first.bitsAllocated)
      else
        Except.ok
          { size := (first.rows, first.cols, (first :: rest).length)
            bitsPerVoxel := first.bitsAllocated
            bytesPerLine := first.rows * (first.bitsAllocated / 8)
            signed := first.pixelRep == 1
            boundingBox :=
              ((first.rows : ℚ) * (first.pixelSpacing.getD (1, 1)).1,
               (first.cols : ℚ) * (first.pixelSpacing.getD (1, 1)).2,
               ((first :: rest).length : ℚ) * first.sliceThickness.getD 1)
            data := ((first :: rest).map
              (fun img => sliceVoxels img (first.rows * first.cols))).flatten }

/- ------------------------------------------------------------------ -/
/- C4 : UnsupportedFormat iff bit depth not 8/16                       -/
/- ------------------------------------------------------------------ -/

/-- Concrete parsed 8-bit image used to refute C4 as stated. -/
def img8 : DicomImage :=
  DicomImage.mk 0 1 1 8 0 none none none none [0] true

/-- Concrete parsed 16-bit image used for the C4 witness. -/
def img16 : DicomImage :=
  DicomImage.mk 0 1 1 16 0 none none none none [0] true

/-- C4 counterexample: the claim states that a load whose bit depth is 8
does not fail with `UnsupportedFormat`, but `Volume.load` throws
`Unsupported bits per voxel: 8` for a valid single-image 8-bit series (the
check at `volume.ts` lines 80-82 accepts only 16). -/
theorem volumeLoad_rejects_8bit :
    img8.bitsAllocated = 8 ∧
    volumeLoad [some img8] =
      Except.error (VolumeLoadErr.unsupportedBitsPerVoxel 8) := by
  constructor
  · rfl
  · rfl

/-- C4 (amended): once the file list is non-empty and the built series is
non-empty, `Volume.load` fails with `UnsupportedFormat` if and only if the
first image's bit depth differs from 16 — so 16-bit loads pass this check
and every other bit depth, including 8, is rejected. -/
theorem volumeLoad_unsupported_iff_not16 (files : List (Option DicomImage))
    (first : DicomImage) (rest : List DicomImage)
    (h : buildImages files = first :: rest) :
    (volumeLoad files =
        Except.error (VolumeLoadErr.unsupportedBitsPerVoxel first.bitsAllocated))
      ↔ first.bitsAllocated ≠ 16 := by
  have hne : files.isEmpty = false := by
    cases files with
    | nil => exact absurd h (by simp [buildImages])
    | cons f fs => rfl
  rw [volumeLoad, hne, h]
  simp only [Bool.false_eq_true, if_false]
  by_cases hb : first.bitsAllocated = 16
  · rw [if_neg (by simp [hb])]
    simp [hb]
  · rw [if_pos hb]
    simp [hb]

/-- C4 witness: a single valid 16-bit image, instantiating
`volumeLoad_unsupported_iff_not16`; the load does not raise the
unsupported-bit-depth error there. -/
theorem volumeLoad_unsupported_iff_not16_witness :
    buildImages [some img16] = [img16] ∧
    ((volumeLoad [some img16] =
        Except.error (VolumeLoadErr.unsupportedBitsPerVoxel img16.bitsAllocated))
      ↔ img16.bitsAllocated ≠ 16) :=
  ⟨rfl, volumeLoad_unsupported_iff_not16 [some img16] img16 [] rfl⟩

/- ------------------------------------------------------------------ -/
/- Engine.loadVolume / Engine.loadTransferFunction (src/src/engine.ts) -/
/- ------------------------------------------------------------------ -/

/-- Engine resource state: the active volume, the active transfer function
and the two ID lists, as held by the `Engine` class fields.  The volume and
transfer-function resource types are abstract parameters. -/
structure EngineState (V T : Type) where
  volume : V
  transferFunction : T
  volumeIDs : List String
  transferFunctionIDs : List String

/-- State update performed by `Engine.loadVolume` after `volume.load`
resolves: replace the active volume and record its name if new. -/
def volumeUpdate {V T : Type} (nameOf : V → String) (s : EngineState V T)
    (v : V) : EngineState V T :=
  { s with
    volume := v
    volumeIDs :=
      if nameOf v ∈ s.volumeIDs then s.volumeIDs else s.volumeIDs ++ [nameOf v] }

/-- State update performed by `Engine.loadTransferFunction` after
`tf.load` resolves. -/
def tfUpdate {V T : Type} (nameOf : T → String) (s : EngineState V T)
    (tf : T) : EngineState V T :=
  { s with
    transferFunction := tf
    transferFunctionIDs :=
      if nameOf tf ∈ s.transferFunctionIDs then s.transferFunctionIDs
      else s.transferFunctionIDs ++ [nameOf tf] }

/-- `Engine.loadVolume` as a state transformer over the outcome of
`new Volume(folderName); await volume.load(files)`: on success the active
volume is replaced, on a thrown error the `catch` block leaves the state
untouched. -/
def engineLoadVolume {ε V T : Type} (nameOf : V → String) (s : EngineState V T)
    (r : Except ε V) : EngineState V T :=
  match r with
  | Except.ok v => volumeUpdate nameOf s v
  | Except.error _ => s

/-- `Engine.loadTransferFunction` as a state transformer over the outcome
of `new TransferFunction(file.name); await tf.load(file)`. -/
def engineLoadTransferFunction {ε V T : Type} (nameOf : T → String)
    (s : EngineState V T) (r : Except ε T) : EngineState V T :=
  match r with
  | Except.ok tf => tfUpdate nameOf s tf
  | Except.error _ => s

/-- JavaScript `try { body } catch (e) { handler }` over `Except`-modelled
exceptions: a thrown error is intercepted by the handler. -/
def tryCatchE {ε α : Type} (body : Except ε α) (handler : ε → Except ε α) :
    Except ε α :=
  match body with
  | Except.ok a => Except.ok a
  | Except.error e => handler e

/-- Whole-method semantics of `Engine.loadVolume`, including the
`try`/`catch` and the console messages it emits: the body propagates the
load outcome, the catch turns any thrown error into a logged no-op. -/
def engineLoadVolumeRun {ε V T : Type} (nameOf : V → String)
    (s : EngineState V T) (r : Except ε V) :
    Except ε (EngineState V T × List String) :=
  tryCatchE
    (do
      let v ← r
      pure (volumeUpdate nameOf s v, ["Loaded Volume " ++ nameOf v]))
    (fun _ => Except.ok (s, ["Failed to load volume:"]))

/-- Whole-method semantics of `Engine.loadTransferFunction`. -/
def engineLoadTransferFunctionRun {ε V T : Type} (nameOf : T → String)
    (s : EngineState V T) (r : Except ε T) :
    Except ε (EngineState V T × List String) :=
  tryCatchE
    (do
      let tf ← r
      pure (tfUpdate nameOf s tf, ["Loaded Transfer Function " ++ nameOf tf]))
    (fun _ => Except.ok (s, ["Failed to load transfer function:"]))

/- ------------------------------------------------------------------ -/
/- C8 : failed loads leave the active resources unchanged              -/
/- ------------------------------------------------------------------ -/

/-- C8: if a volume or transfer-function load fails, the engine state — in
particular the previously active volume and transfer function — is exactly
the previous state, and a successful load replaces only its own resource
reference after the load has completed. -/
theorem engine_load_failure_preserves_resources :
    (∀ (ε V T : Type) (nameOf : V → String) (s : EngineState V T) (e : ε),
        engineLoadVolume nameOf s (Except.error e) = s) ∧
    (∀ (ε V T : Type) (nameOf : T → String) (s : EngineState V T) (e : ε),
        engineLoadTransferFunction nameOf s (Except.error e) = s) ∧
    (∀ (V T : Type) (nameOf : V → String) (s : EngineState V T) (v : V),
        (engineLoadVolume (ε := Unit) nameOf s (Except.ok v)).volume = v ∧
        (engineLoadVolume (ε := Unit) nameOf s (Except.ok v)).transferFunction =
          s.transferFunction) ∧
    (∀ (V T : Type) (nameOf : T → String) (s : EngineState V T) (tf : T),
        (engineLoadTransferFunction (ε := Unit) nameOf s (Except.ok tf)).transferFunction
          = tf ∧
        (engineLoadTransferFunction (ε := Unit) nameOf s (Except.ok tf)).volume =
          s.volume) :=
  ⟨fun _ _ _ _ _ _ => rfl,
   fun _ _ _ _ _ _ => rfl,
   fun _ _ _ _ _ => ⟨rfl, rfl⟩,
   fun _ _ _ _ _ => ⟨rfl, rfl⟩⟩

/- ------------------------------------------------------------------ -/
/- C9 : load methods never propagate an exception                      -/
/- ------------------------------------------------------------------ -/

/-- C9: `Engine.loadVolume` and `Engine.loadTransferFunction` return
normally for every load outcome — the `try`/`catch` swallows every thrown
error, leaving the state unchanged and only a console message — so a caller
never observes a failure through the call's result. -/
theorem engine_load_never_throws :
    (∀ (ε V T : Type) (nameOf : V → String) (s : EngineState V T) (r : Except ε V),
        (engineLoadVolumeRun nameOf s r).isOk = true) ∧
    (∀ (ε V T : Type) (nameOf : T → String) (s : EngineState V T) (r : Except ε T),
        (engineLoadTransferFunctionRun nameOf s r).isOk = true) ∧
    (∀ (ε V T : Type) (nameOf : V → String) (s : EngineState V T) (e : ε),
        engineLoadVolumeRun nameOf s (Except.error e) =
          Except.ok (s, ["Failed to load volume:"])) ∧
    (∀ (ε V T : Type) (nameOf : T → String) (s : EngineState V T) (e : ε),
        engineLoadTransferFunctionRun nameOf s (Except.error e) =
          Except.ok (s, ["Failed to load transfer function:"])) := by
  refine ⟨fun ε V T nameOf s r => ?_, fun ε V T nameOf s r => ?_,
          fun _ _ _ _ _ _ => rfl, fun _ _ _ _ _ _ => rfl⟩
  · cases r with
    | ok v => rfl
    | error e => rfl
  · cases r with
    | ok tf => rfl
    | error e => rfl

/- ------------------------------------------------------------------ -/
/- Camera (src/src/camera.ts, first variant) over ℝ                    -/
/- ------------------------------------------------------------------ -/

/-- Dot product of `gl-matrix` 3-vectors. -/
def vdot {α : Type} [Field α] (u v : Vec3 α) : α :=
  u.x * v.x + u.y * v.y + u.z * v.z

/-- Cross product (`vec3.cross`). -/
def vcross {α : Type} [Field α] (u v : Vec3 α) : Vec3 α :=
  Vec3.mk (u.y * v.z - u.z * v.y) (u.z * v.x - u.x * v.z) (u.x * v.y - u.y * v.x)

/-- Scalar multiple of a 3-vector. -/
def vsmul {α : Type} [Field α] (k : α) (v : Vec3 α) : Vec3 α :=
  Vec3.mk (k * v.x) (k * v.y) (k * v.z)

/-- Component-wise sum of 3-vectors. -/
def vadd {α : Type} [Field α] (u v : Vec3 α) : Vec3 α :=
  Vec3.mk (u.x + v.x) (u.y + v.y) (u.z + v.z)

/-- Rotation of `v` about the axis `a` with `s = sin`, `c = cos` of the
angle: the Rodrigues matrix built by `gl-matrix` `mat4.fromRotation` and
applied by `vec3.transformMat4`,
`R v = c v + s (a × v) + (1 - c)(a · v) a`. -/
def rodrigues {α : Type} [Field α] (s c : α) (a v : Vec3 α) : Vec3 α :=
  vadd (vadd (vsmul c v) (vsmul s (vcross a v))) (vsmul ((1 - c) * vdot a v) a)

/-- Axis normalisation performed inside `mat4.fromRotation` after its
length guard has passed: divide by the Euclidean length. -/
noncomputable def vnormalize (v : Vec3 ℝ) : Vec3 ℝ :=
  vsmul (1 / Real.sqrt (vdot v v)) v

/-- `gl-matrix` `vec3.normalize`: scale by the inverse length when the
squared length is positive, otherwise scale by the (zero) squared length. -/
noncomputable def vnormalizeSafe (v : Vec3 ℝ) : Vec3 ℝ :=
  if 0 < vdot v v then vsmul (1 / Real.sqrt (vdot v v)) v else vsmul (vdot v v) v

/-- `gl-matrix` `EPSILON = 0.000001`: `mat4.fromRotation` returns `null`
when the axis length is below this bound. -/
noncomputable def glEPSILON : ℝ := 1 / 1000000

/-- Mutable state of the `Camera` class (`src/src/camera.ts`): orientation
basis, pan offset, zoom factors, light direction and the bound volume's
geometry.  The cached `_view` matrix is output-only state and is omitted. -/
structure Cam where
  forward : Vec3 ℝ
  up : Vec3 ℝ
  pan : Vec3 ℝ
  zoom : Vec3 ℝ
  light : Vec3 ℝ
  volumeBounds : Vec3 ℝ
  volumeScale : Vec3 ℝ

/-- `Camera` constructor: `forward = (0,0,1)`, `up = (0,1,0)`,
`zoom = (1,1,1)`, `lightDirection = (0,1,0)` and
`pan = (0, 0, bounds.reduce(+))`, for the bound volume's geometry. -/
noncomputable def camInit (bounds scale : Vec3 ℝ) : Cam :=
  Cam.mk (Vec3.mk 0 0 1) (Vec3.mk 0 1 0)
    (Vec3.mk 0 0 (bounds.x + bounds.y + bounds.z))
    (Vec3.mk 1 1 1) (Vec3.mk 0 1 0) bounds scale

/-- `Camera` `zoom` setter: `if (this._zoom[0] + delta > 0)` add the delta
to the x and y zoom components, otherwise do nothing. -/
noncomputable def zoomSet (d : ℝ) (st : Cam) : Cam :=
  if 0 < st.zoom.x + d then
    { st with zoom := Vec3.mk (st.zoom.x + d) (st.zoom.y + d) st.zoom.z }
  else st

/-- `Camera` `pan` setter: add the deltas divided by the current zoom. -/
noncomputable def panSet (dx dy : ℝ) (st : Cam) : Cam :=
  { st with pan := Vec3.mk (st.pan.x + dx / st.zoom.x)
                           (st.pan.y + dy / st.zoom.y) st.pan.z }

/-- New forward vector produced by the `rotation` setter: rotate about the
(normalised) up axis by the yaw angle, then about the right vector
`forward × up` computed from the pre-rotation basis by the pitch angle. -/
noncomputable def rotForward (s1 c1 s2 c2 : ℝ) (st : Cam) : Vec3 ℝ :=
  rodrigues s2 c2 (vnormalize (vcross st.forward st.up))
    (rodrigues s1 c1 (vnormalize st.up) st.forward)

/-- New up vector produced by the `rotation` setter: rotate about the
right vector by the pitch angle. -/
noncomputable def rotUp (s2 c2 : ℝ) (st : Cam) : Vec3 ℝ :=
  rodrigues s2 c2 (vnormalize (vcross st.forward st.up)) st.up

/-- `Camera` `rotation` setter, parameterised by the sine/cosine pairs of
the two angle deltas.  `mat4.fromRotation` returns `null` (and the
subsequent `vec3.transformMat4` would crash) when an axis is shorter than
`EPSILON`; that case is modelled as `none`. -/
noncomputable def rotationSet (s1 c1 s2 c2 : ℝ) (st : Cam) : Option Cam :=
  if Real.sqrt (vdot st.up st.up) < glEPSILON then none
  else if Real.sqrt (vdot (vcross st.forward st.up) (vcross st.forward st.up))
      < glEPSILON then none
  else some { st with forward := rotForward s1 c1 s2 c2 st, up := rotUp s2 c2 st }

/-- `Camera` `lighting` setter: rotate the light direction about `(0,1,0)`
then `(1,0,0)` (unit axes, so `fromRotation` never returns `null`) and
renormalise with `vec3.normalize`. -/
noncomputable def lightingSet (s1 c1 s2 c2 : ℝ) (st : Cam) : Cam :=
  { st with light := vnormalizeSafe (rodrigues s2 c2 (Vec3.mk 1 0 0) (rodrigues s1 c1 (Vec3.mk 0 1 0) st.light)) }

/-- `Camera.resize`: recentre the pan to half the canvas size. -/
noncomputable def resizeSet (w h : ℝ) (st : Cam) : Cam :=
  { st with pan := Vec3.mk (w / 2) (h / 2) st.pan.z }

/-- `Camera.updateVolume`: adopt the new volume's geometry and reset the
cine offset to the sum of the new bounds. -/
noncomputable def updateVolumeSet (bounds scale : Vec3 ℝ) (st : Cam) : Cam :=
  { st with volumeBounds := bounds, volumeScale := scale,
            pan := Vec3.mk st.pan.x st.pan.y (bounds.x + bounds.y + bounds.z) }

/-- One mutating `Camera` operation (rotation and lighting are
parameterised by the sine/cosine pairs of their angle deltas). -/
inductive CamOp where
  | pan (dx dy : ℝ)
  | zoom (d : ℝ)
  | rot (s1 c1 s2 c2 : ℝ)
  | light (s1 c1 s2 c2 : ℝ)
  | resize (w h : ℝ)
  | updateVolume (bounds scale : Vec3 ℝ)

/-- Apply one `Camera` operation; `none` models the crash of a rotation
whose axis degenerates below `EPSILON`. -/
noncomputable def applyOp : CamOp → Cam → Option Cam
  | CamOp.pan dx dy, st => some (panSet dx dy st)
  | CamOp.zoom d, st => some (zoomSet d st)
  | CamOp.rot s1 c1 s2 c2, st => rotationSet s1 c1 s2 c2 st
  | CamOp.light s1 c1 s2 c2, st => some (lightingSet s1 c1 s2 c2 st)
  | CamOp.resize w h, st => some (resizeSet w h st)
  | CamOp.updateVolume b sc, st => some (updateVolumeSet b sc st)

/-- Apply a sequence of `Camera` operations in order. -/
noncomputable def applyOps : Cam → List CamOp → Option Cam
  | st, [] => some st
  | st, op :: ops =>
    match applyOp op st with
    | none => none
    | some st2 => applyOps st2 ops

/-- Apply a sequence of `zoom` setter calls in order. -/
noncomputable def applyZooms : Cam → List ℝ → Cam
  | st, [] => st
  | st, d :: ds => applyZooms (zoomSet d st) ds

/-- Apply a sequence of `rotation` setter calls in order. -/
noncomputable def applyRots : Cam → List (ℝ × ℝ × ℝ × ℝ) → Option Cam
  | st, [] => some st
  | st, r :: rs =>
    match rotationSet r.1 r.2.1 r.2.2.1 r.2.2.2 st with
    | none => none
    | some st2 => applyRots st2 rs

/- ------------------------------------------------------------------ -/
/- C3 : zoom stays strictly positive                                   -/
/- ------------------------------------------------------------------ -/

/-- Invariant preserved by every sequence of `zoom` setter calls: the x
and y zoom components stay equal and all components stay positive. -/
theorem applyZooms_invariant : ∀ (ds : List ℝ) (st : Cam),
    st.zoom.x = st.zoom.y → 0 < st.zoom.x → 0 < st.zoom.z →
    (applyZooms st ds).zoom.x = (applyZooms st ds).zoom.y ∧
    0 < (applyZooms st ds).zoom.x ∧ 0 < (applyZooms st ds).zoom.y ∧
    0 < (applyZooms st ds).zoom.z := by
  intro ds
  induction ds with
  | nil =>
    intro st heq hx hz
    exact ⟨heq, hx, heq ▸ hx, hz⟩
  | cons d ds ih =>
    intro st heq hx hz
    rw [show applyZooms st (d :: ds) = applyZooms (zoomSet d st) ds from rfl]
    by_cases h : 0 < st.zoom.x + d
    · rw [zoomSet, if_pos h]
      refine ih _ ?_ ?_ ?_
      · show st.zoom.x + d = st.zoom.y + d
        rw [heq]
      · exact h
      · exact hz
    · rw [zoomSet, if_neg h]
      exact ih st heq hx hz

/-- C3: starting from the initial zoom `(1,1,1)`, every sequence of `zoom`
setter calls keeps all zoom components strictly positive; a delta that
would drive the zoom to `≤ 0` is rejected as a no-op, and an accepted
delta adds the delta to the x and y zoom components. -/
theorem camera_zoom_positive :
    (∀ (bounds scale : Vec3 ℝ) (ds : List ℝ),
        0 < (applyZooms (camInit bounds scale) ds).zoom.x ∧
        0 < (applyZooms (camInit bounds scale) ds).zoom.y ∧
        0 < (applyZooms (camInit bounds scale) ds).zoom.z) ∧
    (∀ (st : Cam) (d : ℝ), st.zoom.x + d ≤ 0 → zoomSet d st = st) ∧
    (∀ (st : Cam) (d : ℝ), 0 < st.zoom.x + d →
        zoomSet d st =
          { st with zoom := Vec3.mk (st.zoom.x + d) (st.zoom.y + d) st.zoom.z }) := by
  refine ⟨fun bounds scale ds => ?_, fun st d h => ?_, fun st d h => ?_⟩
  · obtain ⟨_, hx, hy, hz⟩ :=
      applyZooms_invariant ds (camInit bounds scale) rfl (by norm_num [camInit])
        (by norm_num [camInit])
    exact ⟨hx, hy, hz⟩
  · rw [zoomSet, if_neg (not_lt.mpr h)]
  · rw [zoomSet, if_pos h]

/-- C3 witness: from the initial state, the delta `-5` would drive the
zoom to `-4 ≤ 0` and is rejected as a no-op, instantiating the second
clause of `camera_zoom_positive`. -/
theorem camera_zoom_positive_witness :
    (camInit (Vec3.mk 1 1 1) (Vec3.mk 1 1 1)).zoom.x + (-5 : ℝ) ≤ 0 ∧
    zoomSet (-5) (camInit (Vec3.mk 1 1 1) (Vec3.mk 1 1 1)) =
      camInit (Vec3.mk 1 1 1) (Vec3.mk 1 1 1) :=
  ⟨by norm_num [camInit],
   camera_zoom_positive.2.1 _ (-5) (by norm_num [camInit])⟩

/- ------------------------------------------------------------------ -/
/- C5 : rotation keeps the basis orthonormal                           -/
/- ------------------------------------------------------------------ -/

/-- Orthonormality of the camera basis: unit forward and up vectors that
are mutually orthogonal. -/
def CamBasisOK (st : Cam) : Prop :=
  vdot st.forward st.forward = 1 ∧ vdot st.up st.up = 1 ∧
  vdot st.forward st.up = 0

/-- Lagrange identity for the squared length of a cross product. -/
theorem vdot_cross_self (u v : Vec3 ℝ) :
    vdot (vcross u v) (vcross u v) =
      vdot u u * vdot v v - vdot u v * vdot u v := by
  obtain ⟨ux, uy, uz⟩ := u
  obtain ⟨vx, vy, vz⟩ := v
  simp only [vdot, vcross]
  ring

/-- A Rodrigues rotation about a unit axis fixes the axis. -/
theorem rodrigues_fix (s c : ℝ) (a : Vec3 ℝ) (ha : vdot a a = 1) :
    rodrigues s c a a = a := by
  obtain ⟨ax, ay, az⟩ := a
  simp only [vdot] at ha
  simp only [rodrigues, vdot, vcross, vsmul, vadd, Vec3.mk.injEq]
  refine ⟨?_, ?_, ?_⟩
  · linear_combination ((1 - c) * ax) * ha
  · linear_combination ((1 - c) * ay) * ha
  · linear_combination ((1 - c) * az) * ha

/-- A Rodrigues rotation about a unit axis, with `sin`/`cos` values on the
unit circle, preserves dot products. -/
theorem rodrigues_vdot (s c : ℝ) (a v w : Vec3 ℝ) (ha : vdot a a = 1)
    (hsc : s ^ 2 + c ^ 2 = 1) :
    vdot (rodrigues s c a v) (rodrigues s c a w) = vdot v w := by
  obtain ⟨ax, ay, az⟩ := a
  obtain ⟨vx, vy, vz⟩ := v
  obtain ⟨wx, wy, wz⟩ := w
  simp only [vdot] at ha
  simp only [rodrigues, vdot, vcross, vsmul, vadd]
  linear_combination
    ((vx * wx + vy * wy + vz * wz) -
        (ax * vx + ay * vy + az * vz) * (ax * wx + ay * wy + az * wz)) * hsc +
      ((vx * wx + vy * wy + vz * wz) * s ^ 2 +
        (ax * vx + ay * vy + az * vz) * (ax * wx + ay * wy + az * wz) * (1 - c) ^ 2) * ha

/-- Normalising a unit vector returns it unchanged. -/
theorem vnormalize_unit (a : Vec3 ℝ) (ha : vdot a a = 1) :
    vnormalize a = a := by
  obtain ⟨ax, ay, az⟩ := a
  simp only [vdot] at ha
  simp only [vnormalize, vdot, ha, Real.sqrt_one]
  simp [vsmul]

/-- One `rotation` setter call on an orthonormal basis succeeds (both axis
guards pass) and yields an orthonormal basis; zoom is untouched. -/
theorem rotationSet_preserves (s1 c1 s2 c2 : ℝ) (st : Cam)
    (h1 : s1 ^ 2 + c1 ^ 2 = 1) (h2 : s2 ^ 2 + c2 ^ 2 = 1)
    (hok : CamBasisOK st) :
    ∃ st2, rotationSet s1 c1 s2 c2 st = some st2 ∧ CamBasisOK st2 ∧
      st2.zoom = st.zoom := by
  obtain ⟨hf, hu, hfu⟩ := hok
  have hr : vdot (vcross st.forward st.up) (vcross st.forward st.up) = 1 := by
    rw [vdot_cross_self, hf, hu, hfu]; ring
  have g1 : ¬ Real.sqrt (vdot st.up st.up) < glEPSILON := by
    rw [hu, Real.sqrt_one, glEPSILON]; norm_num
  have g2 : ¬ Real.sqrt
      (vdot (vcross st.forward st.up) (vcross st.forward st.up)) < glEPSILON := by
    rw [hr, Real.sqrt_one, glEPSILON]; norm_num
  have e1 : vnormalize st.up = st.up := vnormalize_unit st.up hu
  have e2 : vnormalize (vcross st.forward st.up) = vcross st.forward st.up :=
    vnormalize_unit _ hr
  refine ⟨{ st with forward := rotForward s1 c1 s2 c2 st, up := rotUp s2 c2 st },
    by rw [rotationSet, if_neg g1, if_neg g2], ⟨?_, ?_, ?_⟩, rfl⟩
  · show vdot (rotForward s1 c1 s2 c2 st) (rotForward s1 c1 s2 c2 st) = 1
    rw [rotForward, e1, e2, rodrigues_vdot s2 c2 _ _ _ hr h2,
      rodrigues_vdot s1 c1 _ _ _ hu h1]
    exact hf
  · show vdot (rotUp s2 c2 st) (rotUp s2 c2 st) = 1
    rw [rotUp, e2, rodrigues_vdot s2 c2 _ _ _ hr h2]
    exact hu
  · show vdot (rotForward s1 c1 s2 c2 st) (rotUp s2 c2 st) = 0
    rw [rotForward, rotUp, e1, e2, rodrigues_vdot s2 c2 _ _ _ hr h2]
    nth_rewrite 2 [show st.up = rodrigues s1 c1 st.up st.up from
      (rodrigues_fix s1 c1 st.up hu).symm]
    rw [rodrigues_vdot s1 c1 _ _ _ hu h1]
    exact hfu

/-- Every sequence of valid `rotation` setter calls applied to an
orthonormal basis succeeds and preserves orthonormality. -/
theorem applyRots_preserves : ∀ (rs : List (ℝ × ℝ × ℝ × ℝ)) (st : Cam),
    (∀ r ∈ rs, r.1 ^ 2 + r.2.1 ^ 2 = 1 ∧ r.2.2.1 ^ 2 + r.2.2.2 ^ 2 = 1) →
    CamBasisOK st →
    ∃ st2, applyRots st rs = some st2 ∧ CamBasisOK st2 := by
  intro rs
  induction rs with
  | nil => intro st _ hok; exact ⟨st, rfl, hok⟩
  | cons r rs ih =>
    intro st hall hok
    obtain ⟨h1, h2⟩ := hall r (List.mem_cons_self r rs)
    obtain ⟨stMid, hmid, hokMid, _⟩ :=
      rotationSet_preserves r.1 r.2.1 r.2.2.1 r.2.2.2 st h1 h2 hok
    obtain ⟨st2, hrec, hok2⟩ :=
      ih stMid (fun u hu => hall u (List.mem_cons_of_mem r hu)) hokMid
    refine ⟨st2, ?_, hok2⟩
    show (match rotationSet r.1 r.2.1 r.2.2.1 r.2.2.2 st with
          | none => none
          | some st2 => applyRots st2 rs) = some st2
    rw [hmid]
    exact hrec

/-- C5: starting from the initial basis `forward = (0,0,1)`,
`up = (0,1,0)`, every sequence of `rotation` setter calls (each given by
the sine/cosine pairs of its yaw and pitch deltas) succeeds and leaves the
basis exactly orthonormal, so in particular
`|dot(forward, up)| < 1e-5` holds after every call. -/
theorem camera_rotation_orthonormal (bounds scale : Vec3 ℝ)
    (rs : List (ℝ × ℝ × ℝ × ℝ))
    (h : ∀ r ∈ rs, r.1 ^ 2 + r.2.1 ^ 2 = 1 ∧ r.2.2.1 ^ 2 + r.2.2.2 ^ 2 = 1) :
    ∃ st2, applyRots (camInit bounds scale) rs = some st2 ∧
      vdot st2.forward st2.up = 0 ∧ |vdot st2.forward st2.up| < 1 / 100000 ∧
      vdot st2.forward st2.forward = 1 ∧ vdot st2.up st2.up = 1 := by
  have hok : CamBasisOK (camInit bounds scale) := by
    refine ⟨?_, ?_, ?_⟩ <;> norm_num [camInit, vdot]
  obtain ⟨st2, happ, hf, hu, hfu⟩ := applyRots_preserves rs (camInit bounds scale) h hok
  exact ⟨st2, happ, hfu, by rw [hfu]; norm_num, hf, hu⟩

/-- C5 witness: one rotation call with `(sin, cos)` pairs `(3/5, 4/5)` and
`(0, 1)`, instantiating `camera_rotation_orthonormal`. -/
theorem camera_rotation_orthonormal_witness :
    (∀ r ∈ [((3 : ℝ) / 5, (4 : ℝ) / 5, (0 : ℝ), (1 : ℝ))],
        r.1 ^ 2 + r.2.1 ^ 2 = 1 ∧ r.2.2.1 ^ 2 + r.2.2.2 ^ 2 = 1) ∧
    (∃ st2, applyRots (camInit (Vec3.mk 1 1 1) (Vec3.mk 1 1 1))
        [((3 : ℝ) / 5, (4 : ℝ) / 5, (0 : ℝ), (1 : ℝ))] = some st2 ∧
      vdot st2.forward st2.up = 0 ∧ |vdot st2.forward st2.up| < 1 / 100000 ∧
      vdot st2.forward st2.forward = 1 ∧ vdot st2.up st2.up = 1) :=
  ⟨by intro r hr; simp only [List.mem_singleton] at hr; subst hr; norm_num,
   camera_rotation_orthonormal _ _ _
     (by intro r hr; simp only [List.mem_singleton] at hr; subst hr; norm_num)⟩

/- ------------------------------------------------------------------ -/
/- C10 : x and y zoom components always equal                          -/
/- ------------------------------------------------------------------ -/

/-- Every single `Camera` operation preserves equality of the x and y
zoom components (only the `zoom` setter writes them, and it adds the same
delta to both under one guard). -/
theorem applyOp_zoom_eq (op : CamOp) (st st2 : Cam)
    (h : applyOp op st = some st2) (heq : st.zoom.x = st.zoom.y) :
    st2.zoom.x = st2.zoom.y := by
  cases op with
  | pan dx dy => obtain rfl := Option.some.inj h; exact heq
  | zoom d =>
    obtain rfl := Option.some.inj h
    show (zoomSet d st).zoom.x = (zoomSet d st).zoom.y
    rw [zoomSet]
    split
    · show st.zoom.x + d = st.zoom.y + d
      rw [heq]
    · exact heq
  | rot s1 c1 s2 c2 =>
    rw [show applyOp (CamOp.rot s1 c1 s2 c2) st = rotationSet s1 c1 s2 c2 st from rfl,
      rotationSet] at h
    split at h
    · exact absurd h (by simp)
    · split at h
      · exact absurd h (by simp)
      · obtain rfl := Option.some.inj h; exact heq
  | light s1 c1 s2 c2 => obtain rfl := Option.some.inj h; exact heq
  | resize w hh => obtain rfl := Option.some.inj h; exact heq
  | updateVolume b sc => obtain rfl := Option.some.inj h; exact heq

/-- Every sequence of `Camera` operations preserves equality of the x and
y zoom components. -/
theorem applyOps_zoom_eq : ∀ (ops : List CamOp) (st st2 : Cam),
    applyOps st ops = some st2 → st.zoom.x = st.zoom.y →
    st2.zoom.x = st2.zoom.y := by
  intro ops
  induction ops with
  | nil =>
    intro st st2 h heq
    obtain rfl := Option.some.inj h
    exact heq
  | cons op ops ih =>
    intro st st2 h heq
    rw [show applyOps st (op :: ops) =
        (match applyOp op st with
         | none => none
         | some stMid => applyOps stMid ops) from rfl] at h
    cases hop : applyOp op st with
    | none => rw [hop] at h; exact absurd h (by simp)
    | some stMid =>
      rw [hop] at h
      exact ih stMid st2 h (applyOp_zoom_eq op st stMid hop heq)

/-- C10: the x and y zoom components are both initialised to `1` and stay
equal after every sequence of `Camera` operations, `none`-free or not:
the `zoom` setter adds the same delta to both under a single guard on the
x component and no other operation writes the zoom state, so the image
scale stays isotropic. -/
theorem camera_zoom_isotropic :
    (∀ bounds scale : Vec3 ℝ,
        (camInit bounds scale).zoom.x = 1 ∧ (camInit bounds scale).zoom.y = 1) ∧
    (∀ (bounds scale : Vec3 ℝ) (ops : List CamOp) (st2 : Cam),
        applyOps (camInit bounds scale) ops = some st2 →
        st2.zoom.x = st2.zoom.y) :=
  ⟨fun _ _ => ⟨rfl, rfl⟩,
   fun _ _ ops st2 h => applyOps_zoom_eq ops _ st2 h rfl⟩

/-- Camera state reached from the initial state by one `pan(1, 2)` call. -/
noncomputable def camAfterPan : Cam :=
  Cam.mk (Vec3.mk 0 0 1) (Vec3.mk 0 1 0) (Vec3.mk 1 2 3) (Vec3.mk 1 1 1)
    (Vec3.mk 0 1 0) (Vec3.mk 1 1 1) (Vec3.mk 1 1 1)

/-- C10 witness: one `pan` operation from the initial state, instantiating
`camera_zoom_isotropic`. -/
theorem camera_zoom_isotropic_witness :
    applyOps (camInit (Vec3.mk 1 1 1) (Vec3.mk 1 1 1)) [CamOp.pan 1 2] =
      some camAfterPan ∧
    camAfterPan.zoom.x = camAfterPan.zoom.y := by
  have h : applyOps (camInit (Vec3.mk 1 1 1) (Vec3.mk 1 1 1)) [CamOp.pan 1 2] =
      some camAfterPan := by
    show some (panSet 1 2 (camInit (Vec3.mk 1 1 1) (Vec3.mk 1 1 1))) = some camAfterPan
    rw [Option.some.injEq, panSet, camInit, camAfterPan]
    simp only [Cam.mk.injEq, Vec3.mk.injEq]
    norm_num
  exact ⟨h, camera_zoom_isotropic.2 _ _ _ _ h⟩

end Ossium
